import Mathlib

/-!
Verification of the core data pipeline of `streamlit_app.py` (subway-tracker).

The embedding models the static-schedule tables as lists of row structures,
the realtime feed as a list of entities (protobuf `HasField` becomes `Option`),
and the matcher `parse_feed` as a pure function.  Two deliberate modelling
choices, noted where they matter:

* `datetime.now(nyc_tz).timestamp()` — the wall-clock reading taken inside
  `parse_feed` and `plot_selected_trip_on_map` — is passed as an explicit
  integer parameter `now` (the fractional seconds of the Python float are
  dropped; every comparison and subtraction in the source only involves the
  clock and integer epoch timestamps).
* the locale-formatted display strings (`strftime('%I:%M:%S %p')`,
  `f"{minutes_away} min"`) are represented by the raw values they are
  computed from (epoch seconds, minutes as an integer).

Python integer conversion `int(x)` truncates toward zero, which is
`Int.tdiv` on the integer quotients appearing here.
-/

/-- Python `s[:3]`: the first three characters of a string. -/
def take3 (s : String) : String := ⟨s.data.take 3⟩

/-- Python `s.startswith(p)`. -/
def pyStartsWith (s p : String) : Bool := p.data.isPrefixOf s.data

/-- Python `s.lower()` (ASCII-level model). -/
def pyLower (s : String) : String := ⟨s.data.map Char.toLower⟩

/-- Character-list helper for Python's `pat in s` substring test. -/
def containsChars (pat : List Char) : List Char → Bool
  | [] => pat.isEmpty
  | c :: rest => pat.isPrefixOf (c :: rest) || containsChars pat rest

/-- Python `pat in s` (substring containment). -/
def pyContains (s pat : String) : Bool := containsChars pat.data s.data

/-- Fuel-driven worker for `removeOcc`; every step consumes at least one
character and exactly one unit of fuel, so fuel equal to the list length
never runs out. -/
def removeOccAux (p : Char) (ps : List Char) : Nat → List Char → List Char
  | 0, _ => []
  | _ + 1, [] => []
  | fuel + 1, c :: rest =>
    if (p :: ps).isPrefixOf (c :: rest) then removeOccAux p ps fuel (rest.drop ps.length)
    else c :: removeOccAux p ps fuel rest

/-- Python `s.replace(p, '')` for the non-empty pattern `p :: ps`:
removes every occurrence of the pattern from the character list. -/
def removeOcc (p : Char) (ps : List Char) (l : List Char) : List Char :=
  removeOccAux p ps l.length l

/-- `feed_key.lower().replace('gtfs-', '').split('-')[0]`
(line 55 of the source): the normalized line token used for route matching. -/
def lineToken (feed_key : String) : String :=
  ⟨(removeOcc 'g' "tfs-".data (pyLower feed_key).data).takeWhile (fun c => c != '-')⟩

/-- One row of `routes.txt` (only the column the core reads). -/
structure RouteRow where
  route_id : String
deriving Repr, DecidableEq

/-- One row of `trips.txt` (columns the core reads). -/
structure TripRow where
  trip_id : String
  route_id : String
deriving Repr, DecidableEq

/-- One row of `stop_times.txt` (columns the core reads). -/
structure StopTimeRow where
  trip_id : String
  stop_id : String
deriving Repr, DecidableEq

/-- One row of `stops.txt`.  Coordinates are only ever copied into the
map records, never computed with, so an integer model suffices. -/
structure StopRow where
  stop_id : String
  stop_name : String
  stop_lat : Int
  stop_lon : Int
deriving Repr, DecidableEq

/-- `routes[routes['route_id'].str.lower().str.contains(prefix)]` followed by
taking the `route_id` column (source lines 56-57).  The pandas `.unique()`
dedup is dropped: only membership in the id set is ever used downstream. -/
def matchingRouteIds (routes : List RouteRow) (tok : String) : List String :=
  (routes.filter (fun r => pyContains (pyLower r.route_id) tok)).map (fun r => r.route_id)

/-- `trips[trips['route_id'].isin(route_ids)]['trip_id']` (source line 58). -/
def tripIdsForRoutes (trips : List TripRow) (route_ids : List String) : List String :=
  (trips.filter (fun t => route_ids.contains t.route_id)).map (fun t => t.trip_id)

/-- `stop_times[stop_times['trip_id'].isin(trip_ids)]['stop_id']` (source line 59). -/
def stopIdsForTrips (stop_times : List StopTimeRow) (trip_ids : List String) : List String :=
  (stop_times.filter (fun s => trip_ids.contains s.trip_id)).map (fun s => s.stop_id)

/-- `stops[stops['stop_id'].isin(stop_ids)]` for the line selected by
`feed_key` (source lines 55-60, before deduplication): the stop rows served
by the line, in dataset order. -/
def lineStopRows (feed_key : String) (routes : List RouteRow) (trips : List TripRow)
    (stop_times : List StopTimeRow) (stops : List StopRow) : List StopRow :=
  let tok := lineToken feed_key
  let route_ids := matchingRouteIds routes tok
  let trip_ids := tripIdsForRoutes trips route_ids
  let stop_ids := stopIdsForTrips stop_times trip_ids
  stops.filter (fun s => stop_ids.contains s.stop_id)

/-- `drop_duplicates(subset='stop_name')` (source line 60): keep a row iff its
stop name has not been seen before; `seen` is the accumulator of names. -/
def dedupByName (seen : List String) : List StopRow → List StopRow
  | [] => []
  | s :: rest =>
    if s.stop_name ∈ seen then dedupByName seen rest
    else s :: dedupByName (s.stop_name :: seen) rest

/-- Comparison used by `sort_values(by='stop_name')`: lexicographic order
on the stop names. -/
def stopRowLe (a b : StopRow) : Prop := a.stop_name ≤ b.stop_name

instance : DecidableRel stopRowLe :=
  fun a b =>
    decidable_of_iff (a.stop_name.data ≤ b.stop_name.data) String.le_iff_toList_le.symm

instance : IsTotal StopRow stopRowLe := ⟨fun a b => le_total a.stop_name b.stop_name⟩

instance : IsTrans StopRow stopRowLe := ⟨fun _ _ _ hab hbc => le_trans hab hbc⟩

/-- `get_stops_for_line` (source lines 54-61): filter the stops of the line,
deduplicate by stop name (first occurrence wins), sort by stop name.  After
the dedup all names are distinct, so the sort order is unique and the
choice of (stable) sorting algorithm is immaterial. -/
def get_stops_for_line (feed_key : String) (routes : List RouteRow) (trips : List TripRow)
    (stop_times : List StopTimeRow) (stops : List StopRow) : List StopRow :=
  List.insertionSort stopRowLe
    (dedupByName [] (lineStopRows feed_key routes trips stop_times stops))

/-- GTFS-RT trip descriptor; `schedule_relationship` is `none` when
`HasField("schedule_relationship")` is false. -/
structure TripDescriptor where
  trip_id : String
  route_id : String
  schedule_relationship : Option Int
deriving Repr, DecidableEq

/-- One stop-time update; `arrival` is `none` when `HasField('arrival')`
is false, otherwise `some` of `arrival.time` (epoch seconds). -/
structure StopTimeUpdate where
  stop_id : String
  arrival : Option Int
deriving Repr, DecidableEq

/-- A trip update: descriptor plus stop-time updates in feed order. -/
structure TripUpdate where
  trip : TripDescriptor
  stop_time_update : List StopTimeUpdate
deriving Repr, DecidableEq

/-- A feed entity; `trip_update` is `none` when `HasField('trip_update')`
is false. -/
structure FeedEntity where
  trip_update : Option TripUpdate
deriving Repr, DecidableEq

/-- A decoded realtime feed snapshot. -/
structure FeedMessage where
  entity : List FeedEntity
deriving Repr, DecidableEq

/-- One output row of `parse_feed` (source lines 117-127).  The two
formatted time strings are represented by the epoch timestamps they are
formatted from; `minutesAway` is the integer behind `'… min'`. -/
structure ArrivalRecord where
  train : String
  fromStop : String
  toStop : String
  startArrival : Int
  minutesAway : Int
  endArrival : Int
  status : String
  tripId : String
deriving Repr, DecidableEq

/-- The failure `parse_feed` signals via `st.error` before returning an
empty frame (source lines 80-82). -/
inductive ParseError where
  | stopNotFound
deriving Repr, DecidableEq

/-- `stop_data[stop_data['stop_name'] == name]['stop_id'].values[0][:3]`
(source lines 78-79): the 3-character base code of the first stop row with
the given name, or `none` when the selection is empty (the `IndexError`
case). -/
def lookupBase (stop_data : List StopRow) (name : String) : Option String :=
  ((stop_data.filter (fun r => r.stop_name == name)).head?).map (fun r => take3 r.stop_id)

/-- `stop_id.startswith(base) and update.HasField('arrival')`
(source lines 107 and 109). -/
def updMatches (base : String) (u : StopTimeUpdate) : Bool :=
  pyStartsWith u.stop_id base && u.arrival.isSome

/-- The single linear scan over a trip's stop-time updates (source lines
105-110): each matching update overwrites the candidate recorded so far.
Returns the final `(found_start, found_end)` pair. -/
def scanArrivals (start_base end_base : String) (updates : List StopTimeUpdate) :
    Option Int × Option Int :=
  updates.foldl
    (fun acc u =>
      (if updMatches start_base u then u.arrival else acc.1,
       if updMatches end_base u then u.arrival else acc.2))
    (none, none)

/-- The arrival of the last update matching `base`, i.e. the first matching
element of the reversed update list; `none` when no update matches. -/
def lastMatchArrival (base : String) (updates : List StopTimeUpdate) : Option Int :=
  match updates.reverse.find? (updMatches base) with
  | some u => u.arrival
  | none => none

/-- `"Delayed" if delay else "On Time"` (source lines 101-103 and 116):
Python truthiness makes a present-but-zero `schedule_relationship` read as
"On Time". -/
def statusOf (delay : Option Int) : String :=
  match delay with
  | none => "On Time"
  | some d => if d != 0 then "Delayed" else "On Time"

/-- The per-entity body of the `parse_feed` loop (source lines 85-127):
scan the updates, then emit a record iff
`found_start and found_end and found_start < found_end and found_start > now`
— Python truthiness makes a timestamp equal to `0` count as not found.
The dead headsign computation (lines 93-99, consumed only by the
commented-out column on line 123) is elided. -/
def entityRecord (start_base end_base start_stop end_stop : String) (now : Int)
    (tu : TripUpdate) : Option ArrivalRecord :=
  match scanArrivals start_base end_base tu.stop_time_update with
  | (some s, some e0) =>
    if s ≠ 0 ∧ e0 ≠ 0 ∧ s < e0 ∧ s > now then
      some
        { train := tu.trip.route_id
          fromStop := start_stop
          toStop := end_stop
          startArrival := s
          minutesAway := Int.tdiv (s - now) 60
          endArrival := e0
          status := statusOf tu.trip.schedule_relationship
          tripId := tu.trip.trip_id }
    else none
  | _ => none

/-- `parse_feed` (source lines 73-129).  The clock reading taken on line 75
is the parameter `now`; the `IndexError` branch (lines 80-82), which calls
`st.error` and returns an empty frame, is the `.error .stopNotFound` case.
`stop_id_to_name` and `trip_headsign_map` are kept in the signature exactly
as in the source even though no emitted field depends on them. -/
def parse_feed (feed : FeedMessage) (stop_data : List StopRow)
    (stop_id_to_name : List (String × String)) (start_stop end_stop : String)
    (trip_headsign_map : List (String × String)) (now : Int) :
    Except ParseError (List ArrivalRecord) :=
  match lookupBase stop_data start_stop, lookupBase stop_data end_stop with
  | some start_base, some end_base =>
    .ok (feed.entity.filterMap
      (fun ent => ent.trip_update.bind (entityRecord start_base end_base start_stop end_stop now)))
  | _, _ => .error .stopNotFound

/-- `dict(zip(stops['stop_id'].str[:3], stops['stop_name']))` (source line
178), as an association list in insertion order; Python dict semantics make
a later binding of the same key overwrite an earlier one. -/
def buildStopIdToName (stops : List StopRow) : List (String × String) :=
  stops.map (fun s => (take3 s.stop_id, s.stop_name))

/-- Modelled from the spec: the source builds the base-code-to-name
dictionary (line 178) but never queries it, so the lookup itself is missing
from the code.  Following the spec's words — "`stopName(stopBaseCode) ->
string`, returning a sentinel \"Unknown Stop\" when the 3-character base
code is absent from the index" — the lookup returns the value of the last
binding for the code (Python dict last-write-wins) and the sentinel when no
binding exists. -/
def stopName (m : List (String × String)) (code : String) : String :=
  match (m.filter (fun p => p.1 == code)).getLast? with
  | some p => p.2
  | none => "Unknown Stop"

/-- One collected stop of the selected trip (source lines 142-148); the
formatted arrival string is represented by the raw epoch timestamp. -/
structure TripStopInfo where
  stop_name : String
  stop_lat : Int
  stop_lon : Int
  arrival : Int
  minutes_away : Int
deriving Repr, DecidableEq

/-- The per-update body of the trip-path loop (source lines 137-148):
join the update's 3-character base code against the stops table
(`stops['stop_id'].str.startswith(update.stop_id[:3])`, first matching row)
and keep it when the update has an arrival. -/
def updateInfo (stops : List StopRow) (now : Int) (u : StopTimeUpdate) : Option TripStopInfo :=
  match (stops.filter (fun s => pyStartsWith s.stop_id (take3 u.stop_id))).head?, u.arrival with
  | some info, some t =>
    some
      { stop_name := info.stop_name
        stop_lat := info.stop_lat
        stop_lon := info.stop_lon
        arrival := t
        minutes_away := Int.tdiv (t - now) 60 }
  | _, _ => none

/-- The trip-path extraction inside `plot_selected_trip_on_map` (source
lines 131-149): scan the entities in order, and at the first entity whose
trip update carries the requested trip id, collect its stop infos and stop
(the `break` on line 149); an absent trip id yields the empty list. -/
def stops_for_trip (trip_id : String) (stops : List StopRow) (now : Int) :
    List FeedEntity → List TripStopInfo
  | [] => []
  | ent :: rest =>
    match ent.trip_update with
    | some tu =>
      if tu.trip.trip_id == trip_id then
        tu.stop_time_update.filterMap (updateInfo stops now)
      else stops_for_trip trip_id stops now rest
    | none => stops_for_trip trip_id stops now rest

/-- First occurrence of a row's stop name: `s` occurs in `l` at a position
before which no row bears the same stop name. -/
def firstOccByName (s : StopRow) (l : List StopRow) : Prop :=
  ∃ pre post, l = pre ++ s :: post ∧ ∀ t ∈ pre, t.stop_name ≠ s.stop_name

/-- Stops table of the spec's worked scenario: names resolving to the base
codes "101" and "104". -/
def scenStops : List StopRow :=
  [⟨"101N", "Start St", 0, 0⟩, ⟨"104N", "End St", 0, 0⟩]

/-- The single entity of the spec's worked scenario: a trip update with
arrivals at base code "101" at `now + 300` and at "104" at `now + 600`,
with `now = 1000`. -/
def scenEntity : FeedEntity :=
  ⟨some ⟨⟨"T1", "6", none⟩, [⟨"101N", some 1300⟩, ⟨"104N", some 1600⟩]⟩⟩

/-- Feed of the spec's worked scenario: just `scenEntity`. -/
def scenFeed : FeedMessage := ⟨[scenEntity]⟩

/-- The single record the scenario produces. -/
def scenRec : ArrivalRecord :=
  ⟨"6", "Start St", "End St", 1300, 5, 1600, "On Time", "T1"⟩

/-- Updates with two start-base matches (arrivals 1100 then 1300) and one
end-base match (1600). -/
def c2Updates : List StopTimeUpdate :=
  [⟨"101N", some 1100⟩, ⟨"101S", some 1300⟩, ⟨"104N", some 1600⟩]

/-- Feed wrapping `c2Updates` in a single entity. -/
def c2Feed : FeedMessage := ⟨[⟨some ⟨⟨"T2", "6", none⟩, c2Updates⟩⟩]⟩

/-- Updates whose first start-base match has arrival timestamp `0` while a
later start-base match has arrival 1300; end-base match at 1600. -/
def c10Updates : List StopTimeUpdate :=
  [⟨"101N", some 0⟩, ⟨"101S", some 1300⟩, ⟨"104N", some 1600⟩]

/-- Feed wrapping `c10Updates` in a single entity. -/
def c10Feed : FeedMessage := ⟨[⟨some ⟨⟨"T3", "6", none⟩, c10Updates⟩⟩]⟩

/-- A trip update whose last (and only) start-base match carries arrival
timestamp `0`. -/
def c10Trip : TripUpdate :=
  ⟨⟨"T4", "6", none⟩, [⟨"101N", some 0⟩, ⟨"104N", some 1600⟩]⟩

/-! ## Helper lemmas -/

theorem scan_foldr_eq (start_base end_base : String) :
    ∀ m : List StopTimeUpdate,
      m.foldr
        (fun u acc =>
          (if updMatches start_base u then u.arrival else acc.1,
           if updMatches end_base u then u.arrival else acc.2))
        (none, none)
      = (match m.find? (updMatches start_base) with
         | some u => u.arrival
         | none => none,
         match m.find? (updMatches end_base) with
         | some u => u.arrival
         | none => none)
  | [] => rfl
  | u :: rest => by
    rw [List.foldr_cons, scan_foldr_eq start_base end_base rest]
    by_cases h1 : updMatches start_base u <;> by_cases h2 : updMatches end_base u <;>
      simp [List.find?_cons_of_pos, List.find?_cons_of_neg, h1, h2]

/-- The overwriting scan keeps the arrival of the last matching update. -/
theorem scanArrivals_eq_last (start_base end_base : String) (l : List StopTimeUpdate) :
    scanArrivals start_base end_base l
      = (lastMatchArrival start_base l, lastMatchArrival end_base l) := by
  unfold scanArrivals lastMatchArrival
  conv_lhs => rw [← List.reverse_reverse l]
  rw [List.foldl_reverse, scan_foldr_eq]

/-- Everything the emission guard forces about an emitted record. -/
theorem entityRecord_eq_some {start_base end_base start_stop end_stop : String} {now : Int}
    {tu : TripUpdate} {r : ArrivalRecord}
    (h : entityRecord start_base end_base start_stop end_stop now tu = some r) :
    now < r.startArrival ∧ r.startArrival < r.endArrival ∧
      r.minutesAway = Int.tdiv (r.startArrival - now) 60 := by
  unfold entityRecord at h
  rcases hs : scanArrivals start_base end_base tu.stop_time_update with ⟨fs, fe⟩
  rw [hs] at h
  cases fs with
  | none => simp at h
  | some s =>
    cases fe with
    | none => simp at h
    | some e0 =>
      simp only at h
      split_ifs at h with hc
      cases h
      exact ⟨hc.2.2.2, hc.2.2.1, rfl⟩

theorem lookupBase_eq_none_iff (stop_data : List StopRow) (name : String) :
    lookupBase stop_data name = none ↔ ∀ r ∈ stop_data, r.stop_name ≠ name := by
  unfold lookupBase
  simp [List.head?_eq_none_iff, List.filter_eq_nil_iff]

theorem parse_feed_error_iff (feed : FeedMessage) (stop_data : List StopRow)
    (m : List (String × String)) (start_stop end_stop : String)
    (th : List (String × String)) (now : Int) :
    parse_feed feed stop_data m start_stop end_stop th now = .error .stopNotFound
      ↔ ((∀ r ∈ stop_data, r.stop_name ≠ start_stop)
          ∨ (∀ r ∈ stop_data, r.stop_name ≠ end_stop)) := by
  rw [← lookupBase_eq_none_iff, ← lookupBase_eq_none_iff]
  unfold parse_feed
  cases h1 : lookupBase stop_data start_stop <;> cases h2 : lookupBase stop_data end_stop <;>
    simp

/-! ## Claim theorems -/

/-- C1: every `ArrivalRecord` returned by `parse_feed` satisfies the triple
condition of the emission guard — both arrival timestamps were found (they
are the record's `startArrival` and `endArrival` fields), the start arrival
strictly precedes the destination arrival, and the start arrival is
strictly greater than `now`; hence no departed or reversed-direction trip
is ever emitted. -/
theorem parse_feed_triple_condition (feed : FeedMessage) (stop_data : List StopRow)
    (m : List (String × String)) (start_stop end_stop : String)
    (th : List (String × String)) (now : Int) (out : List ArrivalRecord)
    (h : parse_feed feed stop_data m start_stop end_stop th now = .ok out)
    (r : ArrivalRecord) (hr : r ∈ out) :
    now < r.startArrival ∧ r.startArrival < r.endArrival := by
  unfold parse_feed at h
  cases h1 : lookupBase stop_data start_stop <;> cases h2 : lookupBase stop_data end_stop <;>
    rw [h1, h2] at h <;> simp only [reduceCtorEq] at h
  rename_i start_base end_base
  injection h with h
  subst h
  obtain ⟨ent, _, hbind⟩ := List.mem_filterMap.mp hr
  obtain ⟨tu, _, hrec⟩ := Option.bind_eq_some.mp hbind
  exact ⟨(entityRecord_eq_some hrec).1, (entityRecord_eq_some hrec).2.1⟩

/-- C1 witness: the spec's worked scenario emits one record, and it obeys
the triple condition. -/
theorem parse_feed_triple_condition_witness :
    parse_feed scenFeed scenStops [] "Start St" "End St" [] 1000 = Except.ok [scenRec]
    ∧ 1000 < scenRec.startArrival ∧ scenRec.startArrival < scenRec.endArrival :=
  ⟨rfl,
   parse_feed_triple_condition scenFeed scenStops [] "Start St" "End St" [] 1000 [scenRec]
     rfl scenRec (List.mem_singleton.mpr rfl)⟩

/-- C4: every emitted record's minutes-until-arrival equals
`floor((startArrival - now) / 60)` — Lean's `/` on `Int` is floor division
for the positive divisor 60. -/
theorem parse_feed_minutes_floor (feed : FeedMessage) (stop_data : List StopRow)
    (m : List (String × String)) (start_stop end_stop : String)
    (th : List (String × String)) (now : Int) (out : List ArrivalRecord)
    (h : parse_feed feed stop_data m start_stop end_stop th now = .ok out)
    (r : ArrivalRecord) (hr : r ∈ out) :
    r.minutesAway = (r.startArrival - now) / 60 := by
  unfold parse_feed at h
  cases h1 : lookupBase stop_data start_stop <;> cases h2 : lookupBase stop_data end_stop <;>
    rw [h1, h2] at h <;> simp only [reduceCtorEq] at h
  rename_i start_base end_base
  injection h with h
  subst h
  obtain ⟨ent, _, hbind⟩ := List.mem_filterMap.mp hr
  obtain ⟨tu, _, hrec⟩ := Option.bind_eq_some.mp hbind
  obtain ⟨hnow, _, hmin⟩ := entityRecord_eq_some hrec
  rw [hmin, Int.tdiv_eq_ediv (by omega) (by norm_num)]

/-- C4 witness: the spec's scenario (arrivals at `now + 300` and
`now + 600`) yields exactly one record with `minutesAway = 5`, and that
value is the floor of `(startArrival - now) / 60`. -/
theorem parse_feed_minutes_floor_witness :
    parse_feed scenFeed scenStops [] "Start St" "End St" [] 1000 = Except.ok [scenRec]
    ∧ scenRec.minutesAway = 5
    ∧ scenRec.minutesAway = (scenRec.startArrival - 1000) / 60 :=
  ⟨rfl, rfl,
   parse_feed_minutes_floor scenFeed scenStops [] "Start St" "End St" [] 1000 [scenRec]
     rfl scenRec (List.mem_singleton.mpr rfl)⟩

/-- C2 counterexample: in `c2Updates` the FIRST update matching the start
base code "101" carries arrival 1100, yet the emitted record's start
arrival is 1300 — the later matching update (stop "101S", arrival 1300)
replaced the earlier one, so the scan does not record the first match. -/
theorem scan_first_match_counterexample :
    (c2Updates.find? (updMatches "101")).map (fun u => u.arrival) = some (some 1100)
    ∧ parse_feed c2Feed scenStops [] "Start St" "End St" [] 1000
        = Except.ok [⟨"6", "Start St", "End St", 1300, 5, 1600, "On Time", "T2"⟩]
    ∧ ((1300 : Int) = 1100 → False) :=
  ⟨rfl, rfl, by omega⟩

/-- C2 (amended): for every trip-update entity, the single linear scan
records as start (respectively end) candidate the LAST update in feed
order whose stop-ID starts with the base code and that has an arrival
field — a later matching update always replaces an earlier one. -/
theorem scan_records_last_match (start_base end_base : String)
    (updates : List StopTimeUpdate) :
    scanArrivals start_base end_base updates
      = (lastMatchArrival start_base updates, lastMatchArrival end_base updates) :=
  scanArrivals_eq_last start_base end_base updates

/-- C3 counterexample: with the same feed snapshot, the same station names,
the same stop table (and the same auxiliary maps), two runs of the matcher
differ when the internal clock reading differs — `parse_feed` samples
`datetime.now()` itself, so it is not a function of the inputs the claim
lists. -/
theorem parse_feed_clock_dependence :
    parse_feed scenFeed scenStops [] "Start St" "End St" [] 1000
      ≠ parse_feed scenFeed scenStops [] "Start St" "End St" [] 2000 := by
  intro h
  have h' : (Except.ok [scenRec] : Except ParseError (List ArrivalRecord))
      = Except.ok [] := h
  simp at h'

/-- C3 (amended): the matcher is deterministic once the clock reading is
included among the inputs held fixed — two calls with the same feed
snapshot, station names, stop table, auxiliary maps, and the same `now`
yield identical output. -/
theorem parse_feed_deterministic (feed : FeedMessage) (stop_data : List StopRow)
    (m : List (String × String)) (start_stop end_stop : String)
    (th : List (String × String)) (now₁ now₂ : Int) (h : now₁ = now₂) :
    parse_feed feed stop_data m start_stop end_stop th now₁
      = parse_feed feed stop_data m start_stop end_stop th now₂ := by
  rw [h]

/-- C3 witness: the amended determinism at the scenario inputs. -/
theorem parse_feed_deterministic_witness :
    parse_feed scenFeed scenStops [] "Start St" "End St" [] 1000
      = parse_feed scenFeed scenStops [] "Start St" "End St" [] 1000 :=
  parse_feed_deterministic scenFeed scenStops [] "Start St" "End St" [] 1000 1000 rfl

/-- C7: the matcher fails with the stop-not-found error exactly when the
start or the end station name has no matching row in the stop table; the
right-hand side does not mention the feed, and the second conjunct makes
the feed-independence of the failure explicit — on this failure nothing of
the feed contributes to the (empty) result. -/
theorem parse_feed_stopNotFound_exactly (feed feed' : FeedMessage)
    (stop_data : List StopRow) (m : List (String × String))
    (start_stop end_stop : String) (th : List (String × String)) (now : Int) :
    (parse_feed feed stop_data m start_stop end_stop th now = .error .stopNotFound
      ↔ ((∀ r ∈ stop_data, r.stop_name ≠ start_stop)
          ∨ (∀ r ∈ stop_data, r.stop_name ≠ end_stop)))
    ∧ (parse_feed feed stop_data m start_stop end_stop th now = .error .stopNotFound
      ↔ parse_feed feed' stop_data m start_stop end_stop th now = .error .stopNotFound) :=
  ⟨parse_feed_error_iff feed stop_data m start_stop end_stop th now,
   (parse_feed_error_iff feed stop_data m start_stop end_stop th now).trans
     (parse_feed_error_iff feed' stop_data m start_stop end_stop th now).symm⟩

/-- C9: the matcher's output does not depend on the `stop_id_to_name`
argument — the parameter is never read in the body of `parse_feed`. -/
theorem parse_feed_ignores_stop_id_to_name (feed : FeedMessage) (stop_data : List StopRow)
    (m₁ m₂ : List (String × String)) (start_stop end_stop : String)
    (th : List (String × String)) (now : Int) :
    parse_feed feed stop_data m₁ start_stop end_stop th now
      = parse_feed feed stop_data m₂ start_stop end_stop th now := rfl

/-- C10 counterexample: in `c10Updates` the FIRST update matching the start
base code has arrival timestamp 0, yet the entity still emits a record
(with start arrival 1300 from the later matching update) — so a zero
timestamp on the first match does not suppress the record. -/
theorem zero_first_arrival_counterexample :
    (c10Updates.find? (updMatches "101")).map (fun u => u.arrival) = some (some 0)
    ∧ parse_feed c10Feed scenStops [] "Start St" "End St" [] 1000
        = Except.ok [⟨"6", "Start St", "End St", 1300, 5, 1600, "On Time", "T3"⟩] :=
  ⟨rfl, rfl⟩

/-- C10 (amended): if the RECORDED start (or end) candidate — the last
matching update's arrival — equals epoch time 0, Python truthiness makes
the guard treat it as absent and the entity emits no record, even when the
updates carry arrival fields. -/
theorem zero_recorded_arrival_suppresses_record (start_base end_base : String)
    (start_stop end_stop : String) (now : Int) (tu : TripUpdate)
    (h : lastMatchArrival start_base tu.stop_time_update = some 0
       ∨ lastMatchArrival end_base tu.stop_time_update = some 0) :
    entityRecord start_base end_base start_stop end_stop now tu = none := by
  unfold entityRecord
  rw [scanArrivals_eq_last]
  rcases h with h | h <;> rw [h]
  · cases he : lastMatchArrival end_base tu.stop_time_update <;> simp
  · cases hs : lastMatchArrival start_base tu.stop_time_update <;> simp

/-- C10 witness: an entity whose only start-base match has arrival 0 emits
no record despite both updates carrying arrival fields. -/
theorem zero_recorded_arrival_suppresses_record_witness :
    lastMatchArrival "101" c10Trip.stop_time_update = some 0
    ∧ (c10Trip.stop_time_update.all (fun u => u.arrival.isSome)) = true
    ∧ entityRecord "101" "104" "Start St" "End St" 1000 c10Trip = none :=
  ⟨rfl, rfl,
   zero_recorded_arrival_suppresses_record "101" "104" "Start St" "End St" 1000 c10Trip
     (Or.inl rfl)⟩

/-- C5: the base-code-to-name lookup is total — for every base code absent
from the index it returns the sentinel "Unknown Stop", and for every base
code present in the stop table (whose real names differ from the sentinel)
it resolves to a non-sentinel name. -/
theorem stopName_total_roundtrip (stops : List StopRow) (code : String) :
    ((∀ s ∈ stops, take3 s.stop_id ≠ code) →
      stopName (buildStopIdToName stops) code = "Unknown Stop")
    ∧ ((∀ s ∈ stops, s.stop_name ≠ "Unknown Stop") →
      (∃ s ∈ stops, take3 s.stop_id = code) →
      stopName (buildStopIdToName stops) code ≠ "Unknown Stop") := by
  constructor
  · intro h
    unfold stopName buildStopIdToName
    have hnil : ((stops.map fun s => (take3 s.stop_id, s.stop_name)).filter
        (fun p => p.1 == code)) = [] := by
      rw [List.filter_eq_nil_iff]
      intro a ha
      obtain ⟨s, hs, rfl⟩ := List.mem_map.mp ha
      simpa using h s hs
    rw [hnil]
    rfl
  · intro hfresh ⟨s, hs, hcode⟩
    unfold stopName buildStopIdToName
    have hmem : (take3 s.stop_id, s.stop_name) ∈
        ((stops.map fun s => (take3 s.stop_id, s.stop_name)).filter
          (fun p => p.1 == code)) :=
      List.mem_filter.mpr ⟨List.mem_map.mpr ⟨s, hs, rfl⟩, by simp [hcode]⟩
    rcases hlast : ((stops.map fun s => (take3 s.stop_id, s.stop_name)).filter
        (fun p => p.1 == code)).getLast? with _ | p
    · rw [List.getLast?_eq_none_iff] at hlast
      rw [hlast] at hmem
      simp at hmem
    · obtain ⟨hne, hpeq⟩ := List.mem_getLast?_eq_getLast (Option.mem_def.mpr hlast)
      have hp : p ∈ ((stops.map fun s => (take3 s.stop_id, s.stop_name)).filter
          (fun p => p.1 == code)) := hpeq ▸ List.getLast_mem hne
      obtain ⟨t, ht, hteq⟩ := List.mem_map.mp (List.mem_of_mem_filter hp)
      rw [hlast]
      show p.2 ≠ "Unknown Stop"
      rw [← hteq]
      exact hfresh t ht

/-- C5 witness: on the scenario table, an absent code yields the sentinel
and a present code yields the real station name. -/
theorem stopName_total_roundtrip_witness :
    stopName (buildStopIdToName scenStops) "105" = "Unknown Stop"
    ∧ stopName (buildStopIdToName scenStops) "101" ≠ "Unknown Stop" :=
  ⟨(stopName_total_roundtrip scenStops "105").1 (by decide),
   (stopName_total_roundtrip scenStops "101").2 (by decide)
     ⟨⟨"101N", "Start St", 0, 0⟩, by decide, rfl⟩⟩

/-- C8: trip-path extraction scans entities only up to the first entity
whose trip id equals the requested one — entities after the first match
never influence the result — and when no entity carries the trip id the
result is the empty sequence, not an error. -/
theorem stops_for_trip_first_entity_and_absent (trip_id : String) (stops : List StopRow)
    (now : Int) :
    (∀ (pre rest : List FeedEntity) (e : FeedEntity) (tu : TripUpdate),
        e.trip_update = some tu → tu.trip.trip_id = trip_id →
        stops_for_trip trip_id stops now (pre ++ e :: rest)
          = stops_for_trip trip_id stops now (pre ++ [e]))
    ∧ (∀ ents : List FeedEntity,
        (∀ ent ∈ ents, ∀ tu, ent.trip_update = some tu → tu.trip.trip_id ≠ trip_id) →
        stops_for_trip trip_id stops now ents = []) := by
  constructor
  · intro pre
    induction pre with
    | nil =>
      intro rest e tu he htid
      simp only [List.nil_append, stops_for_trip, he, htid, beq_self_eq_true, if_true]
    | cons p pre ih =>
      intro rest e tu he htid
      simp only [List.cons_append, stops_for_trip]
      cases hp : p.trip_update with
      | none => exact ih rest e tu he htid
      | some tu' =>
        by_cases hc : tu'.trip.trip_id == trip_id
        · simp only [hc, if_true]
        · simp only [hc, Bool.false_eq_true, if_false]
          exact ih rest e tu he htid
  · intro ents
    induction ents with
    | nil => intro _; rfl
    | cons ent rest ih =>
      intro hno
      simp only [stops_for_trip]
      cases hent : ent.trip_update with
      | none => exact ih (fun e he tu htu => hno e (List.mem_cons_of_mem _ he) tu htu)
      | some tu =>
        have hne : tu.trip.trip_id ≠ trip_id := hno ent (List.mem_cons_self _ _) tu hent
        simp only [beq_eq_false_iff_ne.mpr hne, Bool.false_eq_true, if_false]
        exact ih (fun e he tu htu => hno e (List.mem_cons_of_mem _ he) tu htu)

/-- C8 witness: appending junk after the first matching entity does not
change the extraction, and an absent trip id yields the empty sequence. -/
theorem stops_for_trip_first_entity_and_absent_witness :
    stops_for_trip "T1" scenStops 1000 ([] ++ scenEntity :: [scenEntity])
      = stops_for_trip "T1" scenStops 1000 ([] ++ [scenEntity])
    ∧ stops_for_trip "T9" scenStops 1000 scenFeed.entity = [] :=
  ⟨(stops_for_trip_first_entity_and_absent "T1" scenStops 1000).1 [] [scenEntity] scenEntity
     ⟨⟨"T1", "6", none⟩, [⟨"101N", some 1300⟩, ⟨"104N", some 1600⟩]⟩ rfl rfl,
   (stops_for_trip_first_entity_and_absent "T9" scenStops 1000).2 scenFeed.entity
     (by
      intro ent hent tu htu
      have hent' : ent = scenEntity := by simpa [scenFeed] using hent
      subst hent'
      simp only [scenEntity] at htu
      cases htu
      decide)⟩

/-- Membership in the keep-first deduplication: a row is kept iff its name
is not among the already-seen names and it is the first row of the list
bearing its name. -/
theorem mem_dedupByName : ∀ (l : List StopRow) (seen : List String) (s : StopRow),
    s ∈ dedupByName seen l
      ↔ s.stop_name ∉ seen
        ∧ ∃ pre post, l = pre ++ s :: post ∧ ∀ t ∈ pre, t.stop_name ≠ s.stop_name := by
  intro l
  induction l with
  | nil =>
    intro seen s
    simp [dedupByName]
  | cons a rest ih =>
    intro seen s
    rw [dedupByName]
    split_ifs with ha
    · rw [ih seen s]
      constructor
      · rintro ⟨hns, pre, post, hl, hpre⟩
        refine ⟨hns, a :: pre, post, by rw [hl, List.cons_append], ?_⟩
        intro t ht
        rcases List.mem_cons.mp ht with rfl | ht'
        · exact fun heq => hns (heq ▸ ha)
        · exact hpre t ht'
      · rintro ⟨hns, pre, post, hl, hpre⟩
        cases pre with
        | nil =>
          simp only [List.nil_append] at hl
          injection hl with h1 h2
          exact absurd (h1 ▸ ha) hns
        | cons b pre' =>
          rw [List.cons_append] at hl
          injection hl with h1 h2
          subst h1
          exact ⟨hns, pre', post, h2, fun t ht => hpre t (List.mem_cons_of_mem _ ht)⟩
    · rw [List.mem_cons, ih (a.stop_name :: seen) s]
      constructor
      · rintro (rfl | ⟨hns, pre, post, hl, hpre⟩)
        · exact ⟨ha, [], rest, rfl, by simp⟩
        · refine ⟨fun h => hns (List.mem_cons_of_mem _ h), a :: pre, post,
            by rw [hl, List.cons_append], ?_⟩
          intro t ht
          rcases List.mem_cons.mp ht with rfl | ht'
          · exact fun heq => hns (heq ▸ List.mem_cons_self _ _)
          · exact hpre t ht'
      · rintro ⟨hns, pre, post, hl, hpre⟩
        cases pre with
        | nil =>
          simp only [List.nil_append] at hl
          injection hl with h1 h2
          exact Or.inl h1.symm
        | cons b pre' =>
          rw [List.cons_append] at hl
          injection hl with h1 h2
          subst h1
          right
          have hneq : a.stop_name ≠ s.stop_name := hpre a (List.mem_cons_self _ _)
          refine ⟨?_, pre', post, h2, fun t ht => hpre t (List.mem_cons_of_mem _ ht)⟩
          intro hmem
          rcases List.mem_cons.mp hmem with heq | hmem'
          · exact hneq heq.symm
          · exact hns hmem'

/-- C6: for every line label and static dataset, `get_stops_for_line`
returns the line's stop rows deduplicated by stop name — a row is in the
output exactly when it is the first occurrence of its stop name in the
filtered dataset order — and the returned sequence is sorted
lexicographically by stop name. -/
theorem get_stops_for_line_dedup_sorted (feed_key : String) (routes : List RouteRow)
    (trips : List TripRow) (stop_times : List StopTimeRow) (stops : List StopRow) :
    List.Sorted stopRowLe (get_stops_for_line feed_key routes trips stop_times stops)
    ∧ (get_stops_for_line feed_key routes trips stop_times stops).Perm
        (dedupByName [] (lineStopRows feed_key routes trips stop_times stops))
    ∧ ∀ s, s ∈ get_stops_for_line feed_key routes trips stop_times stops
        ↔ firstOccByName s (lineStopRows feed_key routes trips stop_times stops) := by
  refine ⟨List.sorted_insertionSort stopRowLe _, List.perm_insertionSort stopRowLe _,
    fun s => ?_⟩
  rw [get_stops_for_line, List.mem_insertionSort, mem_dedupByName]
  unfold firstOccByName
  simp
